import Mathlib

/-!
Verification development for `load_journal_data_to_bq.py`
(GPS-Demos/capricorn-medical-research, backend/capricorn-retrieve-full-articles).

The script is a one-shot ETL pipeline: it parses a semicolon-delimited CSV of
journal rankings (`process_scimagojr_csv`), recreates a BigQuery table
(`create_bigquery_table`), and bulk-loads the records (`load_data_to_bigquery`),
orchestrated by `main`.

Shallow embedding conventions:
* Python strings are Lean `String`s; `str.strip` / `str.replace` are embedded
  over `List Char` (ASCII whitespace set; Python additionally strips some
  Unicode whitespace, which no claim exercises).
* Python `float(str)` is embedded as `pyFloatOfString`, following CPython's
  accepted grammar (optional sign; `inf`/`infinity`/`nan` case-insensitively;
  decimal digits with underscore separators, optional fraction and exponent).
  Finite values are carried as exact rationals (the decimal value denoted by
  the literal, before IEEE-754 rounding); infinities and NaN are explicit
  constructors, and a numeral whose correctly-rounded binary64 value
  overflows yields a signed infinity exactly as CPython's `float("1e400")`
  does (no exception).  Sub-`DBL_MIN` magnitudes are kept as exact nonzero
  rationals where CPython rounds to `0.0` or a subnormal; both are finite,
  so no claim distinguishes them.  Digits are restricted to ASCII.
* A CSV file is modelled as its header field list plus data rows as field
  lists (the `csv` module's semicolon line-splitting itself is not at issue in
  any claim).  `csv.DictReader`'s row dictionaries are modelled by `dictGet`:
  header names are zipped against the row, a row shorter than the header pads
  with `none` (the reader's `restval=None`), duplicate header names resolve to
  the last occurrence (dict assignment order), and a key absent from the
  header is a `KeyError`.
* Uncaught Python exceptions are `Except.error` values of `PyError`; the
  script's `try/except ValueError` is the only handler in the extractor.
-/

set_option autoImplicit false

namespace JournalETL

/-- Decidable equality of `Except` values, used to evaluate the embedded
functions on concrete inputs. -/
instance {ε α : Type} [DecidableEq ε] [DecidableEq α] : DecidableEq (Except ε α) := fun x y =>
  match x, y with
  | .ok a, .ok b =>
    if h : a = b then .isTrue (congrArg Except.ok h)
    else .isFalse (fun hc => h (Except.ok.inj hc))
  | .error a, .error b =>
    if h : a = b then .isTrue (congrArg Except.error h)
    else .isFalse (fun hc => h (Except.error.inj hc))
  | .ok _, .error _ => .isFalse (fun hc => Except.noConfusion hc)
  | .error _, .ok _ => .isFalse (fun hc => Except.noConfusion hc)

/-- ASCII whitespace stripped by Python's `str.strip()` (and by `float()`). -/
def pyIsSpace (c : Char) : Bool :=
  c = ' ' ∨ c = '\t' ∨ c = '\n' ∨ c = '\r' ∨ c = '\x0b' ∨ c = '\x0c'

/-- `str.strip()` on a character list: drop whitespace from both ends. -/
def pyStripList (cs : List Char) : List Char :=
  ((cs.dropWhile pyIsSpace).reverse.dropWhile pyIsSpace).reverse

/-- Python `str.strip()`. -/
def pyStrip (s : String) : String :=
  ⟨pyStripList s.data⟩

/-- Python `str.replace(',', '.')`: both pattern and replacement are single
characters, so this is a character map. -/
def pyReplaceCommaDot (s : String) : String :=
  ⟨s.data.map (fun c => if c = ',' then '.' else c)⟩

/-- Result of Python `float(...)`: a finite value (exact decimal as a
rational), a signed infinity (`true` = negative), or NaN. -/
inductive PyFloat where
  | finite : ℚ → PyFloat
  | inf : Bool → PyFloat
  | nan : PyFloat
deriving DecidableEq, Repr

/-- `true` exactly for finite floats. -/
def PyFloat.isFinite : PyFloat → Bool
  | .finite _ => true
  | .inf _ => false
  | .nan => false

/-- Numeric value of a list of decimal digit characters. -/
def digitsToNat (ds : List Char) : Nat :=
  ds.foldl (fun n c => 10 * n + (c.toNat - '0'.toNat)) 0

/-- Continuation of a digit run after at least one digit has been consumed:
further digits are taken, and an underscore is consumed only when a digit
follows it immediately (CPython allows `_` solely between digits). -/
def digitRunCont : List Char → (List Char × List Char)
  | [] => ([], [])
  | c :: rest =>
    if c.isDigit then
      let p := digitRunCont rest
      (c :: p.1, p.2)
    else if c = '_' then
      match rest with
      | d :: rest2 =>
        if d.isDigit then
          let p := digitRunCont rest2
          (d :: p.1, p.2)
        else ([], c :: rest)
      | [] => ([], [c])
    else ([], c :: rest)

/-- Consume a CPython `digitpart`: a maximal run of decimal digits in which
each underscore separator is flanked by digits on both sides.  Returns the
digits (underscores removed) and the unconsumed remainder; an input not
starting with a digit yields an empty run. -/
def digitRun : List Char → (List Char × List Char)
  | [] => ([], [])
  | c :: rest =>
    if c.isDigit then
      let p := digitRunCont rest
      (c :: p.1, p.2)
    else ([], c :: rest)

/-- Optional fraction part: a dot followed by a (possibly empty) digit run. -/
def parseFrac : List Char → (List Char × List Char)
  | '.' :: rest => digitRun rest
  | r => ([], r)

/-- Optional exponent part, which must consume the whole remainder:
`[]` means exponent `0`; `e`/`E`, optional sign, then a nonempty digit run. -/
def parseExp : List Char → Option ℤ
  | [] => some 0
  | c :: rest =>
    if c = 'e' ∨ c = 'E' then
      let sr : Bool × List Char :=
        match rest with
        | '+' :: r => (false, r)
        | '-' :: r => (true, r)
        | r => (false, r)
      let p := digitRun sr.2
      if p.1 = [] ∨ p.2 ≠ [] then none
      else some (if sr.1 then -(digitsToNat p.1 : ℤ) else (digitsToNat p.1 : ℤ))
    else none

/-- Parse an unsigned decimal float literal (no `inf`/`nan`), entire input.
The mantissa must contain at least one digit. -/
def parseNumeric (cs : List Char) : Option ℚ :=
  let m := digitRun cs
  let f := parseFrac m.2
  if m.1 = [] ∧ f.1 = [] then none
  else
    match parseExp f.2 with
    | none => none
    | some e =>
      some ((digitsToNat (m.1 ++ f.1) : ℚ) / (10 : ℚ) ^ f.1.length * (10 : ℚ) ^ e)

/-- Exact magnitude at and beyond which correctly-rounded (half-even)
conversion to an IEEE-754 binary64 overflows to infinity: the midpoint
between the largest finite double `2 ^ 1024 - 2 ^ 971` and `2 ^ 1024`
(the midpoint itself ties to the even candidate `2 ^ 1024`, so it
overflows). -/
def overflowThreshold : ℚ :=
  2 ^ 1024 - 2 ^ 970

/-- A signed exact decimal value as a Python float: CPython's string
conversion is correctly rounded and silently overflows to a signed infinity
(`float("1e400")` is `inf`, with no exception raised); magnitudes below the
overflow threshold stay finite and are carried exactly. -/
def fitDouble (q : ℚ) : PyFloat :=
  if q ≤ -overflowThreshold then .inf true
  else if overflowThreshold ≤ q then .inf false
  else .finite q

/-- Python `float(s)` on a string: strip whitespace, optional sign, then
either a case-insensitive `inf`/`infinity`/`nan` literal or a decimal
numeric literal consuming the whole remainder.  `none` models `ValueError`. -/
def pyFloatOfString (s : String) : Option PyFloat :=
  let cs := pyStripList s.data
  let sr : Bool × List Char :=
    match cs with
    | '+' :: r => (false, r)
    | '-' :: r => (true, r)
    | _ => (false, cs)
  let lower := sr.2.map Char.toLower
  if lower = "inf".data ∨ lower = "infinity".data then some (.inf sr.1)
  else if lower = "nan".data then some .nan
  else (parseNumeric sr.2).map (fun q => fitDouble (if sr.1 then -q else q))

/-! ### The CSV extractor (`process_scimagojr_csv`) -/

/-- One extracted record: `{'title': ..., 'sjr': ...}` appended to `journals`. -/
structure JournalRecord where
  title : String
  sjr : PyFloat
deriving DecidableEq, Repr

/-- The warning printed when `float(...)` raises `ValueError`:
`"Warning: Could not parse SJR value '{sjr_str}' for journal '{title}'"`.
It carries the journal title and the (stripped) raw SJR string. -/
structure SJRWarning where
  title : String
  rawValue : String
deriving DecidableEq, Repr

/-- Uncaught Python exceptions the extractor can raise: `row[key]` on a key
absent from the header (`KeyError`), or `.strip()` on the `None` that
`DictReader` substitutes for a missing field (`AttributeError`). -/
inductive PyError where
  | keyError (key : String)
  | attributeError
deriving DecidableEq, Repr

/-- A CSV input file: the header row's field names and the data rows. -/
structure CSVFile where
  header : List String
  rows : List (List String)
deriving DecidableEq, Repr

/-- `DictReader` row padding: a row shorter than the header supplies
`restval = None` for the missing trailing fields; extra fields beyond the
header go to the `None` key and are never looked up by name. -/
def padRow (header : List String) (row : List String) : List (Option String) :=
  (row.map some ++ List.replicate header.length none).take header.length

/-- `row[key]` on a `DictReader` row dict: `KeyError` when `key` is not a
header name, otherwise the value (last occurrence wins for duplicate header
names, matching dict assignment order), which is `none` for a missing field. -/
def dictGet (header : List String) (row : List String) (key : String) :
    Except PyError (Option String) :=
  match ((header.zip (padRow header row)).filter (fun p => p.1 = key)).getLast? with
  | some p => .ok p.2
  | none => .error (.keyError key)

/-- `v.strip()` where `v` came from the row dict: `AttributeError` on `None`. -/
def stripField : Option String → Except PyError String
  | some s => .ok (pyStrip s)
  | none => .error .attributeError

/-- The loop body of `process_scimagojr_csv` for one data row:
`title = row['Title'].strip()`, `sjr_str = row['SJR'].strip()`, then
`float(sjr_str.replace(',', '.'))` with `except ValueError` substituting
`0.0` and printing the warning. -/
def processRow (header : List String) (row : List String) :
    Except PyError (JournalRecord × List SJRWarning) := do
  let titleOpt ← dictGet header row "Title"
  let title ← stripField titleOpt
  let sjrOpt ← dictGet header row "SJR"
  let sjr_str ← stripField sjrOpt
  match pyFloatOfString (pyReplaceCommaDot sjr_str) with
  | some f => .ok (⟨title, f⟩, [])
  | none => .ok (⟨title, .finite 0⟩, [⟨title, sjr_str⟩])

/-- The extractor's loop over all data rows, accumulating records and
warnings in row order; the first uncaught exception aborts the run. -/
def processRows (header : List String) :
    List (List String) → Except PyError (List JournalRecord × List SJRWarning)
  | [] => .ok ([], [])
  | r :: rs => do
    let p ← processRow header r
    let q ← processRows header rs
    .ok (p.1 :: q.1, p.2 ++ q.2)

/-- `process_scimagojr_csv`: extract all records from the file. -/
def process_scimagojr_csv (f : CSVFile) :
    Except PyError (List JournalRecord × List SJRWarning) :=
  processRows f.header f.rows

/-! ### The BigQuery side (`create_bigquery_table`, `load_data_to_bigquery`)

The script talks to BigQuery through four client calls: `delete_table`,
`create_table`, `load_table_from_json` + `job.result()`, and `get_table`.
Errors raised by the client are modelled as `BQError`; outcomes of the
remote calls are passed in explicitly, so the control flow of the script
around them (which exceptions it catches, in what order it acts) is what the
definitions pin down. -/

/-- Exceptions raised by the BigQuery client. -/
inductive BQError where
  | notFound
  | conflict
  | other (msg : String)
deriving DecidableEq, Repr

/-- The fixed two-field schema built in both BigQuery functions:
`[SchemaField("title", "STRING", REQUIRED), SchemaField("sjr", "FLOAT64", REQUIRED)]`. -/
structure SchemaField where
  name : String
  fieldType : String
  mode : String
deriving DecidableEq, Repr

def journalSchema : List SchemaField :=
  [⟨"title", "STRING", "REQUIRED"⟩, ⟨"sjr", "FLOAT64", "REQUIRED"⟩]

/-- `client.delete_table(table_ref)` with its success log line; an error
propagates to the caller. -/
def deleteOp (dRes : Except BQError Unit) (tableRef : String) :
    Except BQError (List String) :=
  match dRes with
  | .ok _ => .ok ["Deleted existing table " ++ tableRef]
  | .error e => .error e

/-- `client.create_table(table)` with its success log line; an error
propagates to the caller. -/
def createOp (cRes : Except BQError Unit) (tableRef : String) :
    Except BQError (List String) :=
  match cRes with
  | .ok _ => .ok ["Created table " ++ tableRef]
  | .error e => .error e

/-- `try: op except Exception: pass` — any failure of `op` is swallowed and
its log discarded. -/
def trySwallow (op : Except BQError (List String)) : List String :=
  match op with
  | .ok log => log
  | .error _ => []

/-- `create_bigquery_table`, parameterized over the outcomes the client
returns for the delete and create calls.  The delete is wrapped in
`try/except Exception: pass`; the create is not wrapped.  Returns the log
lines printed, or the propagated create error. -/
def create_bigquery_table (dRes cRes : Except BQError Unit) (tableRef : String) :
    Except BQError (List String) := do
  let log1 := trySwallow (deleteOp dRes tableRef)
  let log2 ← createOp cRes tableRef
  .ok (log1 ++ log2)

/-- State of the destination table identifier: `none` when no table exists. -/
structure TableState where
  schema : List SchemaField
  rows : List JournalRecord
deriving DecidableEq, Repr

def BQState := Option TableState
deriving DecidableEq, Repr

/-- `table.num_rows` as read back by `client.get_table`; a missing table has
no metadata, so count a missing table as `0` (the script only calls this
after a successful load, when the table exists). -/
def numRowsStored : BQState → Nat
  | some t => t.rows.length
  | none => 0

/-- BigQuery service semantics of `delete_table`: removes the table, raising
`NotFound` when it does not exist. -/
def deleteTableService : BQState → Except BQError BQState
  | some _ => .ok none
  | none => .error .notFound

/-- BigQuery service semantics of `create_table`: creates an empty table
with the given schema, raising `Conflict` when one already exists. -/
def createTableService (schema : List SchemaField) : BQState → Except BQError BQState
  | some _ => .error .conflict
  | none => .ok (some ⟨schema, []⟩)

/-- State transition of `create_bigquery_table` against the BigQuery service:
attempt the delete (exception swallowed, state unchanged on failure), then
create the table with `journalSchema`. -/
def createTableStep (s : BQState) : Except BQError BQState :=
  let s1 : BQState :=
    match deleteTableService s with
    | .ok s2 => s2
    | .error _ => s
  createTableService journalSchema s1

/-- Service semantics of a load job with `write_disposition="WRITE_TRUNCATE"`
and the explicit `journalSchema`: on success the table holds exactly the sent
records under that schema, whatever was there before (the table is created if
absent — `CREATE_IF_NEEDED` is the default disposition). -/
def loadTruncateService (data : List JournalRecord) (_ : BQState) :
    Except BQError BQState :=
  .ok (some ⟨journalSchema, data⟩)

/-- A remote bulk-load behavior: given the records sent and the current table
state, the resulting state or a job failure.  `loadTruncateService` is the
faithful behavior; quantifying over this lets theorems speak about a remote
that silently drops rows. -/
def RemoteLoad :=
  List JournalRecord → BQState → Except BQError BQState

/-- Observable events of `load_data_to_bigquery`, in order of occurrence. -/
inductive LoadEvent where
  | submitJob (writeDisposition : String)
  | waitForJob
  | fetchTableMetadata
  | printRowCount (n : Nat)
deriving DecidableEq, Repr

/-- `load_data_to_bigquery`: submit `load_table_from_json` with
`write_disposition="WRITE_TRUNCATE"`, block on `job.result()`, then
`client.get_table` and print `table.num_rows`.  Returns the event trace and,
on success, the resulting table state with the reported row count (read back
from the table metadata, not taken from the sent record list). -/
def load_data_to_bigquery (remote : RemoteLoad) (journals : List JournalRecord)
    (s : BQState) : List LoadEvent × Option (BQState × Nat) :=
  match remote journals s with
  | .ok s1 =>
    ([.submitJob "WRITE_TRUNCATE", .waitForJob, .fetchTableMetadata,
      .printRowCount (numRowsStored s1)], some (s1, numRowsStored s1))
  | .error _ =>
    ([.submitJob "WRITE_TRUNCATE", .waitForJob], none)

/-! ### The entry point (`main`) -/

/-- The work `main` performs after argument parsing, in program order. -/
inductive MainAction where
  | printError
  | parseFile
  | deleteTableAttempt
  | createTable
  | loadData
deriving DecidableEq, Repr

/-- `main` after argument parsing: `os.path.exists` guard (exit 1 when the
file is missing, before any other work), then extract, then
`create_bigquery_table`, then `load_data_to_bigquery` against the faithful
service semantics.  Returns the actions performed and the exit status
(`1` both for `sys.exit(1)` and for an uncaught exception). -/
def mainRun (file : Option CSVFile) (s : BQState) : List MainAction × Nat :=
  match file with
  | none => ([.printError], 1)
  | some f =>
    match process_scimagojr_csv f with
    | .error _ => ([.parseFile], 1)
    | .ok p =>
      match createTableStep s with
      | .error _ => ([.parseFile, .deleteTableAttempt, .createTable], 1)
      | .ok s1 =>
        match (load_data_to_bigquery loadTruncateService p.1 s1).2 with
        | none => ([.parseFile, .deleteTableAttempt, .createTable, .loadData], 1)
        | some _ => ([.parseFile, .deleteTableAttempt, .createTable, .loadData], 0)

/-- The whole pipeline's effect on the destination table, on the success
path: `none` when extraction, creation, or load fails; otherwise the final
table state and the reported row count. -/
def runPipeline (f : CSVFile) (s : BQState) : Option (BQState × Nat) :=
  match process_scimagojr_csv f with
  | .error _ => none
  | .ok p =>
    match createTableStep s with
    | .error _ => none
    | .ok s1 => (load_data_to_bigquery loadTruncateService p.1 s1).2

/-! ## Helper lemmas -/

theorem except_bind_ok {ε α β : Type} (a : α) (f : α → Except ε β) :
    (Except.ok (ε := ε) a >>= f) = f a := rfl

theorem except_bind_error {ε α β : Type} (e : ε) (f : α → Except ε β) :
    (Except.error (α := α) e >>= f) = Except.error e := rfl

/-- Magnitudes strictly inside the overflow threshold stay finite. -/
theorem fitDouble_finite {q : ℚ} (h1 : -overflowThreshold < q)
    (h2 : q < overflowThreshold) : fitDouble q = .finite q := by
  unfold fitDouble
  rw [if_neg (by linarith), if_neg (by linarith)]

/-- Values at or beyond the positive overflow threshold convert to `+inf`,
as CPython's `float("1e400")` does. -/
theorem fitDouble_inf_pos {q : ℚ} (h : overflowThreshold ≤ q) :
    fitDouble q = .inf false := by
  have hpos : (0 : ℚ) < overflowThreshold := by
    unfold overflowThreshold
    norm_num
  unfold fitDouble
  rw [if_neg (by linarith), if_pos h]

/-- A successful `processRow` determines the `Title` and `SJR` fields of the
row, the trimmed title, and either an exact parse of the score or the
`ValueError` fallback with its warning. -/
theorem processRow_ok_inv {header row : List String} {j : JournalRecord}
    {ws : List SJRWarning} (h : processRow header row = .ok (j, ws)) :
    ∃ t s, dictGet header row "Title" = .ok (some t) ∧
      dictGet header row "SJR" = .ok (some s) ∧ j.title = pyStrip t ∧
      ((pyFloatOfString (pyReplaceCommaDot (pyStrip s)) = some j.sjr ∧ ws = []) ∨
       (pyFloatOfString (pyReplaceCommaDot (pyStrip s)) = none ∧ j.sjr = .finite 0 ∧
        ws = [⟨pyStrip t, pyStrip s⟩])) := by
  unfold processRow at h
  rcases hT : dictGet header row "Title" with e | v <;> rw [hT] at h
  · simp [except_bind_error] at h
  rcases v with _ | t
  · simp [except_bind_ok, stripField, except_bind_error] at h
  rw [except_bind_ok] at h
  simp only [stripField, except_bind_ok] at h
  rcases hS : dictGet header row "SJR" with e | v <;> rw [hS] at h
  · simp [except_bind_error] at h
  rcases v with _ | s
  · simp [except_bind_ok, stripField, except_bind_error] at h
  rw [except_bind_ok] at h
  simp only [stripField, except_bind_ok] at h
  refine ⟨t, s, rfl, rfl, ?_⟩
  rcases hP : pyFloatOfString (pyReplaceCommaDot (pyStrip s)) with _ | f <;>
      rw [hP] at h <;>
    simp only [Except.ok.injEq, Prod.mk.injEq] at h
  · exact ⟨by rw [← h.1], .inr ⟨rfl, by rw [← h.1], h.2.symm⟩⟩
  · exact ⟨by rw [← h.1], .inl ⟨by rw [← h.1], h.2.symm⟩⟩

/-- Construction: both `Title` and `SJR` present and the score parses. -/
theorem processRow_ok_of_parse {header row : List String} {t s : String} {f : PyFloat}
    (ht : dictGet header row "Title" = .ok (some t))
    (hs : dictGet header row "SJR" = .ok (some s))
    (hp : pyFloatOfString (pyReplaceCommaDot (pyStrip s)) = some f) :
    processRow header row = .ok (⟨pyStrip t, f⟩, []) := by
  unfold processRow
  rw [ht, except_bind_ok]
  simp only [stripField, except_bind_ok]
  rw [hs, except_bind_ok]
  simp only [stripField, except_bind_ok]
  rw [hp]

/-- Construction: both fields present but the score fails to parse. -/
theorem processRow_ok_of_parse_fail {header row : List String} {t s : String}
    (ht : dictGet header row "Title" = .ok (some t))
    (hs : dictGet header row "SJR" = .ok (some s))
    (hp : pyFloatOfString (pyReplaceCommaDot (pyStrip s)) = none) :
    processRow header row = .ok (⟨pyStrip t, .finite 0⟩, [⟨pyStrip t, pyStrip s⟩]) := by
  unfold processRow
  rw [ht, except_bind_ok]
  simp only [stripField, except_bind_ok]
  rw [hs, except_bind_ok]
  simp only [stripField, except_bind_ok]
  rw [hp]

/-- A successful row prepends its record and warnings and hands control to
the remaining rows, whatever happens there. -/
theorem processRows_cons_of_ok {header : List String} {r : List String}
    {rs : List (List String)} {j : JournalRecord} {w : List SJRWarning}
    (h : processRow header r = .ok (j, w)) :
    processRows header (r :: rs) =
      Except.map (fun q => (j :: q.1, w ++ q.2)) (processRows header rs) := by
  have hdef : processRows header (r :: rs) =
      (processRow header r >>= fun p =>
        processRows header rs >>= fun q => .ok (p.1 :: q.1, p.2 ++ q.2)) := rfl
  rw [hdef, h, except_bind_ok]
  rcases hq : processRows header rs with e | q <;> rfl

/-- A failing row aborts `processRows` outright. -/
theorem processRows_error_of_row_error {header : List String} {r : List String}
    {rs : List (List String)} {e : PyError} (h : processRow header r = .error e) :
    processRows header (r :: rs) = .error e := by
  unfold processRows
  rw [h, except_bind_error]

/-- Every extracted record comes from a successful `processRow` on some row. -/
theorem processRows_mem {header : List String} {rows : List (List String)}
    {js : List JournalRecord} {ws : List SJRWarning}
    (h : processRows header rows = .ok (js, ws)) {j : JournalRecord} (hj : j ∈ js) :
    ∃ r ∈ rows, ∃ w, processRow header r = .ok (j, w) := by
  induction rows generalizing js ws with
  | nil =>
    unfold processRows at h
    simp only [Except.ok.injEq, Prod.mk.injEq] at h
    rw [← h.1] at hj
    exact absurd hj (List.not_mem_nil j)
  | cons r rs ih =>
    unfold processRows at h
    rcases hr : processRow header r with e | p <;> rw [hr] at h
    · simp [except_bind_error] at h
    rw [except_bind_ok] at h
    rcases hq : processRows header rs with e | q <;> rw [hq] at h
    · simp [except_bind_error] at h
    rw [except_bind_ok] at h
    simp only [Except.ok.injEq, Prod.mk.injEq] at h
    rw [← h.1] at hj
    rcases List.mem_cons.mp hj with hj1 | hj2
    · exact ⟨r, List.mem_cons_self r rs, p.2, by rw [hr, hj1]⟩
    · rcases ih hq hj2 with ⟨r', hr', w', hw'⟩
      exact ⟨r', List.mem_cons_of_mem r hr', w', hw'⟩

/-- Row-count preservation with positional correspondence: the extractor
yields one record per data row, the `i`-th record from the `i`-th row. -/
theorem processRows_length_index {header : List String} {rows : List (List String)}
    {js : List JournalRecord} {ws : List SJRWarning}
    (h : processRows header rows = .ok (js, ws)) :
    js.length = rows.length ∧
      ∀ i, i < rows.length →
        ∃ r j w, rows[i]? = some r ∧ js[i]? = some j ∧
          processRow header r = .ok (j, w) := by
  induction rows generalizing js ws with
  | nil =>
    unfold processRows at h
    simp only [Except.ok.injEq, Prod.mk.injEq] at h
    rw [← h.1]
    exact ⟨rfl, fun i hi => absurd hi (Nat.not_lt_zero i)⟩
  | cons r rs ih =>
    unfold processRows at h
    rcases hr : processRow header r with e | p <;> rw [hr] at h
    · simp [except_bind_error] at h
    rw [except_bind_ok] at h
    rcases hq : processRows header rs with e | q <;> rw [hq] at h
    · simp [except_bind_error] at h
    rw [except_bind_ok] at h
    simp only [Except.ok.injEq, Prod.mk.injEq] at h
    rcases ih hq with ⟨hlen, hidx⟩
    rw [← h.1]
    constructor
    · simp [hlen]
    · intro i hi
      cases i with
      | zero => exact ⟨r, p.1, p.2, by simp, by simp, by rw [hr]⟩
      | succ n =>
        rcases hidx n (Nat.lt_of_succ_lt_succ hi) with ⟨r', j', w', h1, h2, h3⟩
        exact ⟨r', j', w', by simpa using h1, by simpa using h2, h3⟩

/-- Looking up a key that is not a header name raises `KeyError`. -/
theorem dictGet_error_of_not_mem {header row : List String} {key : String}
    (h : key ∉ header) : dictGet header row key = .error (.keyError key) := by
  unfold dictGet
  have hfil : ((header.zip (padRow header row)).filter (fun p => p.1 = key)) = [] := by
    refine List.filter_eq_nil_iff.mpr ?_
    intro p hp
    have hmem := (List.of_mem_zip hp).1
    simp only [decide_eq_true_eq]
    intro hk
    exact h (hk ▸ hmem)
  rw [hfil]
  rfl

/-- A row whose `Title` or `SJR` dictionary value is missing (`None`), or
whose header lacks one of those names, makes `processRow` raise. -/
theorem processRow_error_of_missing {header row : List String}
    (h : dictGet header row "Title" = .ok none ∨
         dictGet header row "SJR" = .ok none ∨
         "Title" ∉ header ∨ "SJR" ∉ header) :
    ∃ e, processRow header row = .error e := by
  rcases hT : dictGet header row "Title" with e | v
  · exact ⟨e, by unfold processRow; rw [hT, except_bind_error]⟩
  rcases v with _ | t
  · exact ⟨.attributeError, by
      unfold processRow
      rw [hT, except_bind_ok]
      simp only [stripField, except_bind_error]⟩
  rcases hS : dictGet header row "SJR" with e | v
  · exact ⟨e, by
      unfold processRow
      rw [hT, except_bind_ok]
      simp only [stripField, except_bind_ok]
      rw [hS, except_bind_error]⟩
  rcases v with _ | s
  · exact ⟨.attributeError, by
      unfold processRow
      rw [hT, except_bind_ok]
      simp only [stripField, except_bind_ok]
      rw [hS, except_bind_ok]
      simp only [stripField, except_bind_error]⟩
  -- all four lookup outcomes are `ok (some _)`: each disjunct is refuted
  rcases h with h1 | h2 | h3 | h4
  · rw [hT] at h1; simp at h1
  · rw [hS] at h2; simp at h2
  · exact absurd hT (by rw [dictGet_error_of_not_mem h3]; simp)
  · exact absurd hS (by rw [dictGet_error_of_not_mem h4]; simp)

/-- If any row makes `processRow` raise, the whole extraction raises. -/
theorem processRows_error_of_exists {header : List String} {rows : List (List String)}
    (h : ∃ r ∈ rows, ∃ e, processRow header r = .error e) :
    ∃ e, processRows header rows = .error e := by
  induction rows with
  | nil => rcases h with ⟨r, hr, _⟩; exact absurd hr (List.not_mem_nil r)
  | cons r rs ih =>
    rcases hr : processRow header r with e | p
    · exact ⟨e, processRows_error_of_row_error hr⟩
    · rcases h with ⟨r', hr', e', he'⟩
      rcases List.mem_cons.mp hr' with h1 | h2
      · rw [h1, hr] at he'; exact absurd he' (by simp)
      · rcases ih ⟨r', h2, e', he'⟩ with ⟨e2, he2⟩
        refine ⟨e2, ?_⟩
        rw [processRows_cons_of_ok hr, he2]
        rfl

/-- `createTableStep` lands in the same empty table from any starting state:
the delete either removes the table or fails with `NotFound` (swallowed),
and the create then succeeds on the absent table. -/
theorem createTableStep_eq (s : BQState) :
    createTableStep s = .ok (some ⟨journalSchema, []⟩) := by
  rcases s with _ | t <;> rfl

/-! ## Claims -/

/-- C1: For every data row whose `SJR` field, after trimming whitespace and
replacing every comma with a period, parses as a floating-point number, the
extracted record's `sjr` equals exactly the float obtained by that parse. -/
theorem C1_sjr_exact_parse (header row : List String) (t s : String) (f : PyFloat)
    (ht : dictGet header row "Title" = .ok (some t))
    (hs : dictGet header row "SJR" = .ok (some s))
    (hp : pyFloatOfString (pyReplaceCommaDot (pyStrip s)) = some f) :
    processRow header row = .ok (⟨pyStrip t, f⟩, []) :=
  processRow_ok_of_parse ht hs hp

/-- C1 witness: source `"1,234"` yields `1.234`, and the row `Cell;14,1`
yields the record `{title: "Cell", sjr: 14.1}`. -/
theorem C1_sjr_exact_parse_witness :
    processRow ["Title", "SJR"] ["Cell", "14,1"] =
      .ok (⟨"Cell", .finite (141 / 10)⟩, []) ∧
    processRow ["Title", "SJR"] ["J", "1,234"] =
      .ok (⟨"J", .finite (1234 / 1000)⟩, []) := by
  constructor
  · exact C1_sjr_exact_parse ["Title", "SJR"] ["Cell", "14,1"] "Cell" "14,1"
      (.finite (141 / 10)) (by decide) (by decide)
      (by
        rw [show pyFloatOfString (pyReplaceCommaDot (pyStrip "14,1")) =
              some (fitDouble ((digitsToNat ['1', '4', '1'] : ℚ) / 10 ^ 1 * 10 ^ (0 : ℤ)))
            from rfl,
          show digitsToNat ['1', '4', '1'] = 141 from by decide,
          fitDouble_finite (by norm_num [overflowThreshold]) (by norm_num [overflowThreshold])]
        norm_num)
  · exact C1_sjr_exact_parse ["Title", "SJR"] ["J", "1,234"] "J" "1,234"
      (.finite (1234 / 1000)) (by decide) (by decide)
      (by
        rw [show pyFloatOfString (pyReplaceCommaDot (pyStrip "1,234")) =
              some (fitDouble ((digitsToNat ['1', '2', '3', '4'] : ℚ) / 10 ^ 3 * 10 ^ (0 : ℤ)))
            from rfl,
          show digitsToNat ['1', '2', '3', '4'] = 1234 from by decide,
          fitDouble_finite (by norm_num [overflowThreshold]) (by norm_num [overflowThreshold])]
        norm_num)

/-- C2: For every data row whose `SJR` field fails to parse after
comma-to-period substitution, the extractor emits a warning carrying the
offending title and the raw (stripped) `SJR` value, produces a record with
`sjr` exactly `0.0`, and continues into the subsequent rows. -/
theorem C2_parse_failure_warns_and_continues (header r : List String)
    (rs : List (List String)) (t s : String)
    (ht : dictGet header r "Title" = .ok (some t))
    (hs : dictGet header r "SJR" = .ok (some s))
    (hp : pyFloatOfString (pyReplaceCommaDot (pyStrip s)) = none) :
    processRows header (r :: rs) =
      Except.map
        (fun q => (⟨pyStrip t, .finite 0⟩ :: q.1, ⟨pyStrip t, pyStrip s⟩ :: q.2))
        (processRows header rs) := by
  rw [processRows_cons_of_ok (processRow_ok_of_parse_fail ht hs hp)]
  rcases processRows header rs with e | q <;> rfl

/-- C2 witness: the `N/A` row degrades to `sjr = 0.0` with its warning, and
processing hands over to the remaining rows. -/
theorem C2_parse_failure_warns_and_continues_witness :
    processRows ["Title", "SJR"] [["J", "N/A"], ["K", "N/A"]] =
      Except.map (fun q => (⟨"J", .finite 0⟩ :: q.1, ⟨"J", "N/A"⟩ :: q.2))
        (processRows ["Title", "SJR"] [["K", "N/A"]]) :=
  C2_parse_failure_warns_and_continues ["Title", "SJR"] ["J", "N/A"] [["K", "N/A"]]
    "J" "N/A" (by decide) (by decide) (by decide)

/-- C3 counterexample: the claim "every record has a finite `sjr`" fails on
the code: `float("inf")` succeeds in Python, so a row `Odd Journal;inf` is
accepted and yields a record whose `sjr` is positive infinity. -/
theorem C3_counterexample :
    process_scimagojr_csv ⟨["Title", "SJR"], [["Odd Journal", "inf"]]⟩ =
      .ok ([⟨"Odd Journal", .inf false⟩], []) ∧
    (PyFloat.inf false).isFinite = false :=
  ⟨by decide, rfl⟩

/-- C3 (amended): every record produced by the extractor has a non-null
title (the trimmed string value of its row's `Title` field) and an `sjr`
that is either exactly the float parsed from its `SJR` field or exactly
`0.0` when the field fails numeric parsing; a non-finite `sjr` can only be
such a successfully parsed float (an infinity or NaN, arising from
`inf`/`nan` literals or numerals overflowing the binary64 range, as
`float("1e400")` does), never the `0.0` fallback. -/
theorem C3_record_invariant (header : List String) (rows : List (List String))
    (js : List JournalRecord) (ws : List SJRWarning)
    (h : processRows header rows = .ok (js, ws)) :
    ∀ j ∈ js, ∃ r ∈ rows, ∃ t s,
      dictGet header r "Title" = .ok (some t) ∧ j.title = pyStrip t ∧
      dictGet header r "SJR" = .ok (some s) ∧
      (pyFloatOfString (pyReplaceCommaDot (pyStrip s)) = some j.sjr ∨
       (pyFloatOfString (pyReplaceCommaDot (pyStrip s)) = none ∧
        j.sjr = .finite 0)) ∧
      (j.sjr.isFinite = false →
        pyFloatOfString (pyReplaceCommaDot (pyStrip s)) = some j.sjr) := by
  intro j hj
  rcases processRows_mem h hj with ⟨r, hr, w, hw⟩
  rcases processRow_ok_inv hw with ⟨t, s, h1, h2, h3, h4⟩
  refine ⟨r, hr, t, s, h1, h3, h2, ?_, ?_⟩
  · rcases h4 with ⟨hp, _⟩ | ⟨hp, hz, _⟩
    · exact .inl hp
    · exact .inr ⟨hp, hz⟩
  · intro hnf
    rcases h4 with ⟨hp, _⟩ | ⟨hp, hz, _⟩
    · exact hp
    · rw [hz] at hnf
      simp [PyFloat.isFinite] at hnf

/-- C3 witness: the invariant instantiated on the record extracted from a
malformed-score row, together with the overflow behavior the amendment
names: `float("1e400")` is positive infinity. -/
theorem C3_record_invariant_witness :
    (∃ r ∈ ([["Cell", "N/A"]] : List (List String)), ∃ t s,
      dictGet ["Title", "SJR"] r "Title" = .ok (some t) ∧
      (JournalRecord.mk "Cell" (.finite 0)).title = pyStrip t ∧
      dictGet ["Title", "SJR"] r "SJR" = .ok (some s) ∧
      (pyFloatOfString (pyReplaceCommaDot (pyStrip s)) =
          some (JournalRecord.mk "Cell" (.finite 0)).sjr ∨
       (pyFloatOfString (pyReplaceCommaDot (pyStrip s)) = none ∧
        (JournalRecord.mk "Cell" (.finite 0)).sjr = .finite 0)) ∧
      ((JournalRecord.mk "Cell" (.finite 0)).sjr.isFinite = false →
        pyFloatOfString (pyReplaceCommaDot (pyStrip s)) =
          some (JournalRecord.mk "Cell" (.finite 0)).sjr)) ∧
    pyFloatOfString "1e400" = some (.inf false) := by
  constructor
  · exact C3_record_invariant ["Title", "SJR"] [["Cell", "N/A"]]
      [⟨"Cell", .finite 0⟩] [⟨"Cell", "N/A"⟩] (by decide)
      ⟨"Cell", .finite 0⟩ (by decide)
  · rw [show pyFloatOfString "1e400" =
        some (fitDouble ((digitsToNat ['1'] : ℚ) / 10 ^ 0 * 10 ^ (400 : ℤ))) from rfl,
      show digitsToNat ['1'] = 1 from by decide,
      fitDouble_inf_pos (by norm_num [overflowThreshold])]

/-- C4: if the file at the given `--csv-file` path does not exist, the
process exits with status `1` before any parsing, table deletion, table
creation, or load is performed. -/
theorem C4_missing_file_exits_before_work (s : BQState) :
    (mainRun none s).2 = 1 ∧
    MainAction.parseFile ∉ (mainRun none s).1 ∧
    MainAction.deleteTableAttempt ∉ (mainRun none s).1 ∧
    MainAction.createTable ∉ (mainRun none s).1 ∧
    MainAction.loadData ∉ (mainRun none s).1 := by
  refine ⟨rfl, ?_, ?_, ?_, ?_⟩ <;> simp [mainRun]

/-- C5: for every data row, the extracted title equals the source `Title`
field with leading and trailing whitespace removed. -/
theorem C5_title_trimmed (header row : List String) (j : JournalRecord)
    (ws : List SJRWarning) (h : processRow header row = .ok (j, ws)) :
    ∃ t, dictGet header row "Title" = .ok (some t) ∧ j.title = pyStrip t := by
  rcases processRow_ok_inv h with ⟨t, _, h1, _, h3, _⟩
  exact ⟨t, h1, h3⟩

/-- C5 witness: source `"  Nature Reviews  "` yields `"Nature Reviews"`. -/
theorem C5_title_trimmed_witness :
    ∃ t, dictGet ["Title", "SJR"] ["  Nature Reviews  ", "N/A"] "Title" =
        .ok (some t) ∧
      (JournalRecord.mk "Nature Reviews" (.finite 0)).title = pyStrip t :=
  C5_title_trimmed ["Title", "SJR"] ["  Nature Reviews  ", "N/A"]
    ⟨"Nature Reviews", .finite 0⟩ [⟨"Nature Reviews", "N/A"⟩] (by decide)

/-- C6: every failure of the delete call is swallowed — for every delete
outcome the run proceeds to table creation, which succeeds when the create
call succeeds — while a create failure propagates uncaught as-is. -/
theorem C6_delete_swallowed_create_propagates (dRes : Except BQError Unit)
    (e : BQError) (ref : String) :
    create_bigquery_table dRes (.error e) ref = .error e ∧
    ∃ log, create_bigquery_table dRes (.ok ()) ref = .ok log := by
  constructor
  · cases dRes <;> rfl
  · exact ⟨trySwallow (deleteOp dRes ref) ++ ["Created table " ++ ref],
      by cases dRes <;> rfl⟩

/-- C7: the extractor yields exactly one record per data row, in source row
order: the output has the same length as the row list and its `i`-th record
is produced from the `i`-th data row. -/
theorem C7_one_record_per_row_in_order (header : List String)
    (rows : List (List String)) (js : List JournalRecord) (ws : List SJRWarning)
    (h : processRows header rows = .ok (js, ws)) :
    js.length = rows.length ∧
      ∀ i, i < rows.length →
        ∃ r j w, rows[i]? = some r ∧ js[i]? = some j ∧
          processRow header r = .ok (j, w) :=
  processRows_length_index h

/-- C7 witness: a two-row file (second row malformed) yields two records in
order. -/
theorem C7_one_record_per_row_in_order_witness :
    ([⟨"A", .finite 0⟩, ⟨"B", .finite 0⟩] : List JournalRecord).length =
      ([["A", "N/A"], ["B", "N/A"]] : List (List String)).length ∧
    ∀ i, i < ([["A", "N/A"], ["B", "N/A"]] : List (List String)).length →
      ∃ r j w, ([["A", "N/A"], ["B", "N/A"]] : List (List String))[i]? = some r ∧
        ([⟨"A", .finite 0⟩, ⟨"B", .finite 0⟩] : List JournalRecord)[i]? = some j ∧
        processRow ["Title", "SJR"] r = .ok (j, w) :=
  C7_one_record_per_row_in_order ["Title", "SJR"] [["A", "N/A"], ["B", "N/A"]]
    [⟨"A", .finite 0⟩, ⟨"B", .finite 0⟩] [⟨"A", "N/A"⟩, ⟨"B", "N/A"⟩] (by decide)

/-- C8: when the remote job reaches a successful terminal state, the loader's
trace submits with `WRITE_TRUNCATE`, waits for the job, and only then fetches
the table metadata; the reported count is the row count of the post-load
table state, not the length of the record list sent. -/
theorem C8_loader_sync_truncate_reports_stored (remote : RemoteLoad)
    (js : List JournalRecord) (s s1 : BQState) (h : remote js s = .ok s1) :
    load_data_to_bigquery remote js s =
      ([.submitJob "WRITE_TRUNCATE", .waitForJob, .fetchTableMetadata,
        .printRowCount (numRowsStored s1)], some (s1, numRowsStored s1)) := by
  unfold load_data_to_bigquery
  rw [h]

/-- C8 witness: a remote that silently stores nothing makes the loader
report `0`, the re-fetched count, not the `1` record sent. -/
theorem C8_loader_sync_truncate_reports_stored_witness :
    load_data_to_bigquery (fun _ _ => .ok none) [⟨"A", .finite 0⟩] none =
      ([.submitJob "WRITE_TRUNCATE", .waitForJob, .fetchTableMetadata,
        .printRowCount 0], some (none, 0)) ∧
    (0 : Nat) ≠ ([⟨"A", PyFloat.finite 0⟩] : List JournalRecord).length :=
  ⟨C8_loader_sync_truncate_reports_stored (fun _ _ => .ok none)
    [⟨"A", .finite 0⟩] none none rfl, by decide⟩

/-- C9: whenever extraction succeeds, one pipeline run leaves the table
holding exactly the extracted records under the fixed schema — whatever the
table held before — and reports their count; hence two runs on the same
input produce the same result from any two starting states. -/
theorem C9_full_refresh_idempotent (f : CSVFile) (js : List JournalRecord)
    (ws : List SJRWarning) (s sAlt : BQState)
    (h : process_scimagojr_csv f = .ok (js, ws)) :
    runPipeline f s = some (some ⟨journalSchema, js⟩, js.length) ∧
    runPipeline f s = runPipeline f sAlt := by
  have key : ∀ s0 : BQState,
      runPipeline f s0 = some (some ⟨journalSchema, js⟩, js.length) := by
    intro s0
    unfold runPipeline
    rw [h, createTableStep_eq]
    rfl
  exact ⟨key s, (key s).trans (key sAlt).symm⟩

/-- C9 witness: a one-row file refreshes both an empty destination and a
destination holding an unrelated row under a different schema to the same
single-record table, with reported count `1`. -/
theorem C9_full_refresh_idempotent_witness :
    runPipeline ⟨["Title", "SJR"], [["Cell", "N/A"]]⟩ none =
      some (some ⟨journalSchema, [⟨"Cell", .finite 0⟩]⟩, 1) ∧
    runPipeline ⟨["Title", "SJR"], [["Cell", "N/A"]]⟩ none =
      runPipeline ⟨["Title", "SJR"], [["Cell", "N/A"]]⟩
        (some ⟨[], [⟨"Old", .finite 0⟩]⟩) :=
  C9_full_refresh_idempotent ⟨["Title", "SJR"], [["Cell", "N/A"]]⟩
    [⟨"Cell", .finite 0⟩] [⟨"Cell", "N/A"⟩] none
    (some ⟨[], [⟨"Old", .finite 0⟩]⟩) (by decide)

/-- C10 counterexample: with a header lacking both `Title` and `SJR` but no
data rows, the extractor raises nothing and returns an empty record list —
the loop body never runs — refuting the claim that a missing header column
by itself makes the run abort. -/
theorem C10_counterexample :
    ("Title" ∉ (["Foo", "Bar"] : List String)) ∧
    ("SJR" ∉ (["Foo", "Bar"] : List String)) ∧
    process_scimagojr_csv ⟨["Foo", "Bar"], []⟩ = .ok ([], []) :=
  ⟨by decide, by decide, rfl⟩

/-- C10 (amended): if the file has at least one data row and the header
lacks a column literally named `Title` or `SJR`, or some data row's `Title`
or `SJR` dictionary value is absent (a row shorter than the header), the
extractor raises an uncaught exception that aborts the run — in particular
no `0.0` fallback record is produced for a missing field. -/
theorem C10_missing_field_raises (header : List String) (rows : List (List String))
    (h : (rows ≠ [] ∧ ("Title" ∉ header ∨ "SJR" ∉ header)) ∨
         (∃ r ∈ rows, dictGet header r "Title" = .ok none ∨
                      dictGet header r "SJR" = .ok none)) :
    ∃ e, processRows header rows = .error e := by
  apply processRows_error_of_exists
  rcases h with ⟨hne, hmiss⟩ | ⟨r, hr, hcase⟩
  · rcases rows with _ | ⟨r, rs⟩
    · exact absurd rfl hne
    · refine ⟨r, List.mem_cons_self r rs, ?_⟩
      apply processRow_error_of_missing
      rcases hmiss with h1 | h2
      · exact .inr (.inr (.inl h1))
      · exact .inr (.inr (.inr h2))
  · refine ⟨r, hr, ?_⟩
    apply processRow_error_of_missing
    rcases hcase with h1 | h2
    · exact .inl h1
    · exact .inr (.inl h2)

/-- C10 witness: a file whose header lacks `Title`, with one data row,
aborts with an uncaught exception. -/
theorem C10_missing_field_raises_witness :
    ∃ e, processRows ["Foo"] [["x"]] = .error e :=
  C10_missing_field_raises ["Foo"] [["x"]] (.inl ⟨by decide, .inl (by decide)⟩)

end JournalETL
